import Mathlib

/-!
# Verification of the Aliyun-CDN-MCP input-normalization layer

Shallow embedding of the string-normalization and natural-language
extraction functions of `src/main.py` (`parse_source_info`,
`parse_cache_rule`, `parse_header`, and the line scanner of
`setup_cdn_with_text`), together with theorems settling the frozen
claims about them.

Python strings are modelled as `List Char` (wrapped in `String` at the
function boundaries).  Python digit classes (`str.isdigit`-style checks,
the `\d` of the regular expressions, and `int()`) are modelled over the
ASCII range.  A Python `ValueError` (failed tuple unpacking, failed
`int()`) and `IndexError` (subscripting an empty match list) are the two
error outcomes of the fallible functions.
-/

namespace CdnMcp

/-- Error kinds raised by the Python code under consideration:
`valueError` for failed tuple unpacking and failed `int()` conversion,
`indexError` for `[0]` on an empty `re.findall` result. -/
inductive PyErr where
  | valueError
  | indexError
  deriving DecidableEq, Repr

deriving instance DecidableEq for Except

/-! ## Character classes and basic string helpers -/

/-- ASCII decimal digit, the model of the regex class `\d` and of the
digit test inside `int()`. -/
def isAsciiDigit (c : Char) : Bool := 48 ≤ c.toNat && c.toNat ≤ 57

/-- Characters removed by Python `str.strip()` (ASCII whitespace). -/
def pyIsSpace (c : Char) : Bool :=
  c.toNat = 32 || c.toNat = 9 || c.toNat = 10 ||
  c.toNat = 13 || c.toNat = 11 || c.toNat = 12

/-- Python `str.strip()`: drop whitespace from both ends. -/
def pyStrip (s : List Char) : List Char :=
  ((s.dropWhile pyIsSpace).reverse.dropWhile pyIsSpace).reverse

/-- Cons a character onto the first group of a split result. -/
def consHead (a : Char) : List (List Char) → List (List Char)
  | [] => [[a]]
  | g :: gs => (a :: g) :: gs

/-- Python `str.split(sep)` for a one-character separator: split on every
occurrence, keeping empty groups; the empty string yields `[[]]`. -/
def splitChar (c : Char) : List Char → List (List Char)
  | [] => [[]]
  | a :: rest =>
    if a = c then [] :: splitChar c rest else consHead a (splitChar c rest)

/-- Join groups back with the separator; inverse of `splitChar`. -/
def joinChar (c : Char) : List (List Char) → List Char
  | [] => []
  | [g] => g
  | g :: gs => g ++ c :: joinChar c gs

/-- Numeric value of a list of ASCII digits (most significant first). -/
def natOfDigits (ds : List Char) : Nat :=
  ds.foldl (fun a c => a * 10 + (c.toNat - 48)) 0

/-- The digit suffix check and conversion used by `int()` after the
optional sign: the remainder must be a non-empty run of digits. -/
def unsignedVal (ds : List Char) : Option Nat :=
  if !ds.isEmpty && ds.all isAsciiDigit then some (natOfDigits ds) else none

/-- Sign handling of Python `int()` on an already-stripped string. -/
def pyIntCore : List Char → Option Int
  | [] => none
  | c :: rest =>
    if c.toNat = 45 then (unsignedVal rest).map (fun n => -(n : Int))
    else if c.toNat = 43 then (unsignedVal rest).map (fun n => (n : Int))
    else (unsignedVal (c :: rest)).map (fun n => (n : Int))

/-- Python `int(s)` on ASCII input: surrounding whitespace is ignored, an
optional single sign precedes a non-empty digit run; anything else is a
`ValueError` (modelled as `none`). -/
def pyInt (s : List Char) : Option Int := pyIntCore (pyStrip s)

/-- Contiguous-substring test, the model of Python `pat in s`. -/
def hasSub (pat : List Char) : List Char → Bool
  | [] => pat.isEmpty
  | a :: rest => pat.isPrefixOf (a :: rest) || hasSub pat rest

/-! ## parse_source_info (src/main.py lines 17-51, string branch)

The structured-`dict` branch of the Python function returns its input
unchanged and is not modelled; every claim concerns the string branch. -/

/-- The object-storage prefix `oss://` as characters. -/
def ossMark : List Char := "oss://".toList

/-- Python `source.startswith("oss://")`. -/
def startsWithOss (l : List Char) : Bool := ossMark.isPrefixOf l

/-- Python `source.replace("oss://", "")`: remove every non-overlapping
occurrence of the prefix string, scanning left to right. -/
def removeOss : List Char → List Char
  | 'o' :: 's' :: 's' :: ':' :: '/' :: '/' :: rest => removeOss rest
  | a :: rest => a :: removeOss rest
  | [] => []

/-- One 1-to-3-digit group of the dotted-quad regex. -/
def grp13 (l : List Char) : Bool :=
  !l.isEmpty && l.length ≤ 3 && l.all isAsciiDigit

/-- Four dot-separated 1-to-3-digit groups and nothing else: the body of
`^\d{1,3}(\.\d{1,3}){3}$`. -/
def fourGroups (s : List Char) : Bool :=
  match splitChar '.' s with
  | [a, b, c, d] => grp13 a && grp13 b && grp13 c && grp13 d
  | _ => false

/-- Model of `re.match(r"^\d{1,3}(\.\d{1,3}){3}$", s)`: Python `$` also
matches just before a single trailing newline, so the pattern accepts a
dotted quad followed by one final `\n` as well. -/
def reMatchQuad (s : List Char) : Bool :=
  fourGroups s || ((s.getLast? == some '\n') && fourGroups s.dropLast)

/-- Canonical origin descriptor produced by `parse_source_info`. -/
structure SourceInfo where
  type : String
  content : String
  port : Int
  deriving DecidableEq, Repr

/-- Embedding of `parse_source_info` (string branch): strip the
object-storage scheme via `replace`, otherwise split on `:` with the
first part as content and the optional second part as port (default 80),
classifying the kind by the dotted-quad regex. -/
def parse_source_info (s : String) : Except PyErr SourceInfo :=
  if startsWithOss s.toList then
    .ok { type := "oss", content := String.mk (removeOss s.toList), port := 80 }
  else
    match splitChar ':' s.toList with
    | [] => .error .valueError
    | content :: restParts =>
      let portE : Except PyErr Int :=
        match restParts with
        | [] => .ok 80
        | p :: _ =>
          match pyInt p with
          | some n => .ok n
          | none => .error .valueError
      match portE with
      | .error e => .error e
      | .ok port =>
        .ok { type := if reMatchQuad content then "ipaddr" else "domain",
              content := String.mk content,
              port := port }

/-! ## parse_cache_rule (src/main.py lines 53-69, string branch) -/

/-- Canonical cache rule produced by `parse_cache_rule`. -/
structure CacheRule where
  path_pattern : String
  ttl : Int
  deriving DecidableEq, Repr

/-- Embedding of `parse_cache_rule` (string branch): the two-target
unpacking `pattern, ttl = rule.split(":")` demands exactly two groups,
then the pattern gains a leading slash if absent and the ttl goes
through `int()`. -/
def parse_cache_rule (rule : String) : Except PyErr CacheRule :=
  match splitChar ':' rule.toList with
  | [pat, ttlPart] =>
    match pyInt ttlPart with
    | some n =>
      .ok { path_pattern := String.mk (if pat.head? = some '/' then pat else '/' :: pat),
            ttl := n }
    | none => .error .valueError
  | _ => .error .valueError

/-! ## parse_header (src/main.py lines 71-84, string branch) -/

/-- Canonical header record produced by `parse_header`. -/
structure HeaderKV where
  key : String
  value : String
  deriving DecidableEq, Repr

/-- Embedding of `parse_header` (string branch): the unpacking
`key, value = header.split(":")` demands exactly two groups, then both
sides are stripped of surrounding whitespace. -/
def parse_header (h : String) : Except PyErr HeaderKV :=
  match splitChar ':' h.toList with
  | [k, v] => .ok { key := String.mk (pyStrip k), value := String.mk (pyStrip v) }
  | _ => .error .valueError

/-! ## setup_cdn_with_text (src/main.py lines 364-462)

The line scanner and the two downstream service invocations
(`add_cdn_domain`, `set_cdn_cache`) are modelled; the network round trip
itself is the external collaborator, so an invocation is recorded as a
`SvcCall` value in the result. -/

/-- Keyword markers of the elif chain of `setup_cdn_with_text`, in the
order the source checks them. -/
def domainMark : List Char := ".xiangyuncdn.com".toList

/-- Acceleration-type line marker. -/
def accelMark : List Char := "加速类型".toList

/-- Origin-type line marker. -/
def originTypeMark : List Char := "源站类型".toList

/-- Origin-IP line marker. -/
def ipMark : List Char := "IP地址".toList

/-- Origin-port line marker. -/
def portMark : List Char := "端口".toList

/-- Cache-rule line marker. -/
def cacheMark : List Char := "缓存".toList

/-- Sub-keywords of the acceleration-type branch. -/
def bigDlMark : List Char := "大文件下载".toList

/-- Sub-keyword for small-file web acceleration (long form). -/
def picSmallMark : List Char := "图片小文件".toList

/-- Sub-keyword for small-file web acceleration (short form). -/
def smallMark : List Char := "小文件".toList

/-- Sub-keyword for audio/video acceleration. -/
def avMark : List Char := "视音频".toList

/-- Sub-keyword distinguishing live streaming. -/
def liveMark : List Char := "直播".toList

/-- Origin-type literal keyword for an IP origin. -/
def ipaddrMark : List Char := "ipaddr".toList

/-- Origin-type literal keyword for a domain origin. -/
def domainWordMark : List Char := "domain".toList

/-- Origin-type literal keyword for an object-storage origin. -/
def ossWordMark : List Char := "oss".toList

/-- Sub-keyword selecting the image extension group in a cache line. -/
def picMark : List Char := "图片".toList

/-- Sub-keyword selecting the video extension group in a cache line. -/
def vidMark : List Char := "视频".toList

/-- Hour-unit marker of a cache line. -/
def hourMark : List Char := "小时".toList

/-- Day-unit marker of a cache line. -/
def dayMark : List Char := "天".toList

/-- Intermediate extraction state of `setup_cdn_with_text`, mirroring the
six local variables initialised before the line loop. -/
structure Draft where
  domain_name : Option String
  cdn_type : Option String
  source_type : Option String
  source_ip : Option String
  source_port : Option Nat
  cache_rules : List String
  deriving DecidableEq, Repr

/-- The extraction state before any line is processed. -/
def initDraft : Draft :=
  { domain_name := none, cdn_type := none, source_type := none,
    source_ip := none, source_port := none, cache_rules := [] }

/-- Domain branch: record the stripped line verbatim as the domain. -/
def handleDomain (d : Draft) (line : List Char) : Draft :=
  { d with domain_name := some (String.mk (pyStrip line)) }

/-- Acceleration-type branch: sub-keyword containment, checked in source
order; a line matching none of the sub-keywords leaves the state as is. -/
def handleAccel (d : Draft) (line : List Char) : Draft :=
  if hasSub bigDlMark line then { d with cdn_type := some "download" }
  else if hasSub picSmallMark line || hasSub smallMark line then
    { d with cdn_type := some "web" }
  else if hasSub avMark line && hasSub liveMark line then
    { d with cdn_type := some "live" }
  else if hasSub avMark line then { d with cdn_type := some "video" }
  else d

/-- Origin-type branch: literal keyword containment in source order. -/
def handleOriginType (d : Draft) (line : List Char) : Draft :=
  if hasSub ipaddrMark line then { d with source_type := some "ipaddr" }
  else if hasSub domainWordMark line then { d with source_type := some "domain" }
  else if hasSub ossWordMark line then { d with source_type := some "oss" }
  else d

/-- Leftmost match of the pattern `\d+\.\d+\.\d+\.\d+` starting at the
head of the list, greedy digit runs. -/
def quadAt (s : List Char) : Option (List Char) :=
  let d1 := s.takeWhile isAsciiDigit
  if d1.isEmpty then none else
  match s.dropWhile isAsciiDigit with
  | '.' :: r1 =>
    let d2 := r1.takeWhile isAsciiDigit
    if d2.isEmpty then none else
    match r1.dropWhile isAsciiDigit with
    | '.' :: r2 =>
      let d3 := r2.takeWhile isAsciiDigit
      if d3.isEmpty then none else
      match r2.dropWhile isAsciiDigit with
      | '.' :: r3 =>
        let d4 := r3.takeWhile isAsciiDigit
        if d4.isEmpty then none else
        some (d1 ++ '.' :: d2 ++ '.' :: d3 ++ '.' :: d4)
      | _ => none
    | _ => none
  | _ => none

/-- First match of `re.findall(r"\d+\.\d+\.\d+\.\d+", s)`. -/
def firstQuad : List Char → Option (List Char)
  | [] => none
  | a :: rest =>
    match quadAt (a :: rest) with
    | some m => some m
    | none => firstQuad rest

/-- First match of `re.findall(r"\d+", s)`: the leftmost maximal run of
digits. -/
def firstDigitRun : List Char → Option (List Char)
  | [] => none
  | a :: rest =>
    if isAsciiDigit a then some ((a :: rest).takeWhile isAsciiDigit)
    else firstDigitRun rest

/-- Origin-IP branch: `re.findall(r"\d+\.\d+\.\d+\.\d+", line)[0]`; an
empty match list makes the subscript raise `IndexError`. -/
def handleIp (d : Draft) (line : List Char) : Except PyErr Draft :=
  match firstQuad line with
  | some q => .ok { d with source_ip := some (String.mk q) }
  | none => .error .indexError

/-- Port branch: `int(re.findall(r"\d+", line)[0])`; an empty match list
makes the subscript raise `IndexError`. -/
def handlePort (d : Draft) (line : List Char) : Except PyErr Draft :=
  match firstDigitRun line with
  | some ds => .ok { d with source_port := some (natOfDigits ds) }
  | none => .error .indexError

/-- Extension group of a cache line, keyed by content keyword. -/
def cachePattern (line : List Char) : String :=
  if hasSub picMark line then "*.jpg,*.jpeg,*.png,*.gif"
  else if hasSub vidMark line then "*.mp4,*.flv,*.m3u8"
  else "*"

/-- Duration (in hours) of a cache line: default 1; an hour marker takes
the first digit run as hours, else a day marker takes it times 24; with a
unit marker but no digit run the subscript raises `IndexError`. -/
def cacheHours (line : List Char) : Except PyErr Nat :=
  if hasSub hourMark line then
    match firstDigitRun line with
    | some ds => .ok (natOfDigits ds)
    | none => .error .indexError
  else if hasSub dayMark line then
    match firstDigitRun line with
    | some ds => .ok (natOfDigits ds * 24)
    | none => .error .indexError
  else .ok 1

/-- Decimal rendering of a natural number, as Python `str` does. -/
def natStr (n : Nat) : List Char := (Nat.repr n).toList

/-- Cache branch: one shorthand rule string `ext:ttl` per extension of
the selected group, with `ttl = hours * 3600` seconds. -/
def handleCache (d : Draft) (line : List Char) : Except PyErr Draft :=
  match cacheHours line with
  | .error e => .error e
  | .ok hours =>
    let ttl := hours * 3600
    let exts := splitChar ',' (cachePattern line).toList
    let newRules := exts.map (fun ext => String.mk (ext ++ ':' :: natStr ttl))
    .ok { d with cache_rules := d.cache_rules ++ newRules }

/-- Rule strings emitted by one cache line: one `ext:ttl` per extension
of the selected group, with the ttl in seconds. -/
def cacheRuleStrings (line : List Char) (hours : Nat) : List String :=
  (splitChar ',' (cachePattern line).toList).map
    (fun ext => String.mk (ext ++ ':' :: natStr (hours * 3600)))

/-- One iteration of the line loop of `setup_cdn_with_text`: the elif
chain over the six category markers, in source order. -/
def processLine (d : Draft) (line : List Char) : Except PyErr Draft :=
  if hasSub domainMark line then .ok (handleDomain d line)
  else if hasSub accelMark line then .ok (handleAccel d line)
  else if hasSub originTypeMark line then .ok (handleOriginType d line)
  else if hasSub ipMark line then handleIp d line
  else if hasSub portMark line then handlePort d line
  else if hasSub cacheMark line then handleCache d line
  else .ok d

/-- Run the loop over all lines, propagating the first raised error. -/
def runLines (d : Draft) : List (List Char) → Except PyErr Draft
  | [] => .ok d
  | l :: ls =>
    match processLine d l with
    | .ok d2 => runLines d2 ls
    | .error e => .error e

/-- Line preparation of `setup_cdn_with_text`: split the text on
newlines, strip each line, keep the non-empty ones. -/
def extractLines (text : String) : List (List Char) :=
  ((splitChar '\n' text.toList).map pyStrip).filter (fun l => !l.isEmpty)

/-- Origin record assembled by the natural-language path; unlike
`SourceInfo` its content may be the absent value `None`. -/
structure NLSource where
  type : String
  content : Option String
  port : Nat
  deriving DecidableEq, Repr

/-- An invocation of the Domain Configuration Service recorded by the
natural-language path. -/
inductive SvcCall where
  | addDomain (domain : String) (src : NLSource) (cdnType : String)
  | setCache (domain : String) (rules : List String)
  deriving DecidableEq, Repr

/-- Result of a completed `setup_cdn_with_text` run: the service calls
performed, in order, and the returned message. -/
structure SetupResult where
  calls : List SvcCall
  message : String
  deriving DecidableEq, Repr

/-- Python `x or default` on an optional string: `None` and the empty
string are falsy. -/
def pyOrStr (o : Option String) (dflt : String) : String :=
  match o with
  | some s => if s.isEmpty then dflt else s
  | none => dflt

/-- Python `x or default` on an optional number: `None` and `0` are
falsy. -/
def pyOrNat (o : Option Nat) (dflt : Nat) : Nat :=
  match o with
  | some n => if n = 0 then dflt else n
  | none => dflt

/-- The failure message returned when no domain line was found. -/
def noDomainMsg : String := "未能在文本中找到域名信息"

/-- Embedding of `setup_cdn_with_text`: scan the lines, then either
return the missing-domain message with no service call, or build the
origin record with Python `or` defaults and record the add-domain call
followed, when any cache rule was accumulated, by the set-cache call. -/
def setup_cdn_with_text (text : String) : Except PyErr SetupResult :=
  match runLines initDraft (extractLines text) with
  | .error e => .error e
  | .ok d =>
    match d.domain_name with
    | none => .ok { calls := [], message := noDomainMsg }
    | some dn =>
      if dn.isEmpty then .ok { calls := [], message := noDomainMsg }
      else
        let src : NLSource :=
          { type := pyOrStr d.source_type "ipaddr",
            content := d.source_ip,
            port := pyOrNat d.source_port 80 }
        .ok { calls :=
                SvcCall.addDomain dn src (pyOrStr d.cdn_type "web") ::
                  (if d.cache_rules.isEmpty then []
                   else [SvcCall.setCache dn d.cache_rules]),
              message := "已完成CDN配置：\n" ++ "域名 " ++ dn ++ " 添加成功" }

/-! ## Spec-side formulation of the per-line priority order (claim C8) -/

/-- The six line categories of the extractor's elif chain. -/
inductive LineCat where
  | domain
  | accel
  | originType
  | ip
  | port
  | cache
  deriving DecidableEq, Repr

/-- The fixed priority order of the spec, as an explicit table:
category paired with its marker, earliest-checked first. -/
def markerTable : List (LineCat × List Char) :=
  [(.domain, domainMark), (.accel, accelMark), (.originType, originTypeMark),
   (.ip, ipMark), (.port, portMark), (.cache, cacheMark)]

/-- Spec-side classification: the first category of the table whose
marker the line contains. -/
def categoryOf (line : List Char) : Option LineCat :=
  (markerTable.find? (fun pr => hasSub pr.2 line)).map Prod.fst

/-- Dispatch a classified line to its branch handler. -/
def handleCat : LineCat → Draft → List Char → Except PyErr Draft
  | .domain, d, l => .ok (handleDomain d l)
  | .accel, d, l => .ok (handleAccel d l)
  | .originType, d, l => .ok (handleOriginType d l)
  | .ip, d, l => handleIp d l
  | .port, d, l => handlePort d l
  | .cache, d, l => handleCache d l

/-! ## Library of facts about the helpers -/

theorem consHead_cons (a : Char) (g : List Char) (gs : List (List Char)) :
    consHead a (g :: gs) = (a :: g) :: gs := rfl

theorem splitChar_ne_nil (c : Char) (l : List Char) : splitChar c l ≠ [] := by
  cases l with
  | nil => simp [splitChar]
  | cons a rest =>
    simp only [splitChar]
    split
    · simp
    · cases h : splitChar c rest with
      | nil => simp [consHead]
      | cons g gs => simp [consHead]

theorem splitChar_not_mem {c : Char} {l : List Char} (h : c ∉ l) :
    splitChar c l = [l] := by
  induction l with
  | nil => rfl
  | cons a rest ih =>
    have hac : ¬ a = c := fun he => h (he ▸ List.mem_cons_self a rest)
    have h2 : c ∉ rest := fun hm => h (List.mem_cons_of_mem _ hm)
    simp [splitChar, hac, ih h2, consHead]

theorem splitChar_append {c : Char} {l₁ : List Char} (l₂ : List Char) (h : c ∉ l₁) :
    splitChar c (l₁ ++ c :: l₂) = l₁ :: splitChar c l₂ := by
  induction l₁ with
  | nil => simp [splitChar]
  | cons a rest ih =>
    have hac : ¬ a = c := fun he => h (he ▸ List.mem_cons_self a rest)
    have h2 : c ∉ rest := fun hm => h (List.mem_cons_of_mem _ hm)
    simp [splitChar, hac, ih h2, consHead]

theorem joinChar_splitChar (c : Char) (l : List Char) :
    joinChar c (splitChar c l) = l := by
  induction l with
  | nil => rfl
  | cons a rest ih =>
    by_cases hac : a = c
    · subst hac
      simp only [splitChar, if_pos rfl]
      cases h : splitChar a rest with
      | nil => exact absurd h (splitChar_ne_nil a rest)
      | cons g gs =>
        rw [h] at ih
        simpa [joinChar] using ih
    · simp only [splitChar, if_neg hac]
      cases h : splitChar c rest with
      | nil => exact absurd h (splitChar_ne_nil c rest)
      | cons g gs =>
        rw [h] at ih
        cases gs with
        | nil => simpa [consHead, joinChar] using congrArg (a :: ·) ih
        | cons g2 gs2 =>
          simp only [consHead, joinChar]
          simp only [joinChar] at ih
          simp [ih]

theorem digit_toNat {x : Char} (h : isAsciiDigit x = true) :
    48 ≤ x.toNat ∧ x.toNat ≤ 57 := by
  simpa [isAsciiDigit] using h

theorem digit_ne_colon {x : Char} (h : isAsciiDigit x = true) : x ≠ ':' := by
  intro he
  subst he
  exact absurd h (by decide)

theorem digit_not_space {x : Char} (h : isAsciiDigit x = true) :
    pyIsSpace x = false := by
  obtain ⟨h1, h2⟩ := digit_toNat h
  simp only [pyIsSpace, Bool.or_eq_false_iff, decide_eq_false_iff_not]
  omega

theorem dropWhile_false {p : Char → Bool} {l : List Char}
    (h : ∀ x ∈ l, p x = false) : l.dropWhile p = l := by
  cases l with
  | nil => rfl
  | cons a t => simp [List.dropWhile, h a (List.mem_cons_self a t)]

theorem pyStrip_digits {l : List Char} (h : ∀ x ∈ l, isAsciiDigit x = true) :
    pyStrip l = l := by
  unfold pyStrip
  rw [dropWhile_false (fun x hx => digit_not_space (h x hx))]
  rw [dropWhile_false (fun x hx => digit_not_space (h x (List.mem_reverse.mp hx)))]
  exact List.reverse_reverse l

theorem pyInt_digits {l : List Char} (hne : l ≠ [])
    (h : ∀ x ∈ l, isAsciiDigit x = true) :
    pyInt l = some ((natOfDigits l : Int)) := by
  unfold pyInt
  rw [pyStrip_digits h]
  cases l with
  | nil => exact absurd rfl hne
  | cons a rest =>
    have ha := digit_toNat (h a (List.mem_cons_self a rest))
    have h45 : ¬ a.toNat = 45 := by omega
    have h43 : ¬ a.toNat = 43 := by omega
    have hall : (a :: rest).all isAsciiDigit = true := List.all_eq_true.mpr h
    simp [pyIntCore, if_neg h45, if_neg h43, unsignedVal, hall]

/-- Characterization of `parse_cache_rule` on a one-colon input. -/
theorem parse_cache_rule_split (pat ds : List Char) (h1 : ':' ∉ pat)
    (h2 : ':' ∉ ds) :
    parse_cache_rule (String.mk (pat ++ ':' :: ds)) =
      match pyInt ds with
      | some n =>
        .ok { path_pattern :=
                String.mk (if pat.head? = some '/' then pat else '/' :: pat),
              ttl := n }
      | none => .error .valueError := by
  unfold parse_cache_rule
  rw [show (String.mk (pat ++ ':' :: ds)).toList = pat ++ ':' :: ds from rfl,
      splitChar_append ds h1, splitChar_not_mem h2]

/-- Characterization of `parse_cache_rule` on a zero-colon input. -/
theorem parse_cache_rule_nocolon (s : String) (h : ':' ∉ s.toList) :
    parse_cache_rule s = .error .valueError := by
  unfold parse_cache_rule
  rw [splitChar_not_mem h]

/-- Characterization of `parse_cache_rule` on a two-colon input. -/
theorem parse_cache_rule_twocolon (a b c : List Char) (h1 : ':' ∉ a)
    (h2 : ':' ∉ b) (h3 : ':' ∉ c) :
    parse_cache_rule (String.mk (a ++ ':' :: (b ++ ':' :: c))) =
      .error .valueError := by
  unfold parse_cache_rule
  rw [show (String.mk (a ++ ':' :: (b ++ ':' :: c))).toList =
        a ++ ':' :: (b ++ ':' :: c) from rfl,
      splitChar_append _ h1, splitChar_append _ h2, splitChar_not_mem h3]

/-- Characterization of `parse_header` on a one-colon input. -/
theorem parse_header_split (k v : List Char) (h1 : ':' ∉ k) (h2 : ':' ∉ v) :
    parse_header (String.mk (k ++ ':' :: v)) =
      .ok { key := String.mk (pyStrip k), value := String.mk (pyStrip v) } := by
  unfold parse_header
  rw [show (String.mk (k ++ ':' :: v)).toList = k ++ ':' :: v from rfl,
      splitChar_append v h1, splitChar_not_mem h2]

/-- Characterization of `parse_header` on a zero-colon input. -/
theorem parse_header_nocolon (s : String) (h : ':' ∉ s.toList) :
    parse_header s = .error .valueError := by
  unfold parse_header
  rw [splitChar_not_mem h]

/-- Characterization of `parse_header` on a two-colon input. -/
theorem parse_header_twocolon (a b c : List Char) (h1 : ':' ∉ a)
    (h2 : ':' ∉ b) (h3 : ':' ∉ c) :
    parse_header (String.mk (a ++ ':' :: (b ++ ':' :: c))) =
      .error .valueError := by
  unfold parse_header
  rw [show (String.mk (a ++ ':' :: (b ++ ':' :: c))).toList =
        a ++ ':' :: (b ++ ':' :: c) from rfl,
      splitChar_append _ h1, splitChar_append _ h2, splitChar_not_mem h3]

/-! ## Claim C1 — cache-rule shorthand and its colon handling -/

/-- Claim C1, counterexample.  The claim says a shorthand cache rule
splits on the LAST colon, so `"a:b:5"` would give pattern `a:b` and ttl
`5`; the code's two-target unpacking of `split(":")` instead raises
`ValueError` on any string with more than one colon. -/
theorem claim1_last_colon_counterexample :
    parse_cache_rule ("a:b:5") = .error .valueError ∧
      parse_cache_rule ("a:b:5") ≠ .ok ⟨"/a:b", 5⟩ := by
  decide

/-- Claim C1, amended: a shorthand cache rule is accepted only when it
contains exactly one colon; it then yields the pattern prefixed with a
slash when absent and the `int()` parse of the ttl part, failing with
`ValueError` (the `InvalidFormat` kind) when the ttl part is not
numeric; a string with zero or two-plus colons fails with the same
error. -/
theorem claim1_cache_rule_amended :
    (∀ pat ds : List Char, ':' ∉ pat → ':' ∉ ds →
       parse_cache_rule (String.mk (pat ++ ':' :: ds)) =
         match pyInt ds with
         | some n =>
           .ok { path_pattern :=
                   String.mk (if pat.head? = some '/' then pat else '/' :: pat),
                 ttl := n }
         | none => .error .valueError) ∧
    (∀ s : String, ':' ∉ s.toList → parse_cache_rule s = .error .valueError) ∧
    (∀ a b c : List Char, ':' ∉ a → ':' ∉ b → ':' ∉ c →
       parse_cache_rule (String.mk (a ++ ':' :: (b ++ ':' :: c))) =
         .error .valueError) :=
  ⟨parse_cache_rule_split, parse_cache_rule_nocolon, parse_cache_rule_twocolon⟩

/-- Claim C1, witness at a concrete accepted input. -/
theorem claim1_cache_rule_witness :
    parse_cache_rule ("img:3600") = .ok ⟨"/img", 3600⟩ := by
  have h := claim1_cache_rule_amended.1 ("img".toList) ("3600".toList)
    (by decide) (by decide)
  exact h.trans (by decide)

/-! ## Claim C2 — header shorthand and its colon handling -/

/-- Claim C2, counterexample.  The claim says the header shorthand
splits on the FIRST colon only, so a value may itself contain colons;
`"Referer: http://x"` would give key `Referer` and value `http://x`, but
the code's two-target unpacking of `split(":")` raises `ValueError` on
any string with more than one colon. -/
theorem claim2_header_counterexample :
    parse_header ("Referer: http://x") = .error .valueError ∧
      parse_header ("Referer: http://x") ≠ .ok ⟨"Referer", "http://x"⟩ := by
  decide

/-- Claim C2, amended: a shorthand header is accepted only when it
contains exactly one colon; it then splits there and trims surrounding
whitespace from both key and value (so `"Content-Type: text/html"`
yields key `Content-Type` and value `text/html`); with no colon, or
with a value containing further colons, it fails with `ValueError`
(the `InvalidFormat` kind). -/
theorem claim2_header_amended :
    (∀ k v : List Char, ':' ∉ k → ':' ∉ v →
       parse_header (String.mk (k ++ ':' :: v)) =
         .ok { key := String.mk (pyStrip k), value := String.mk (pyStrip v) }) ∧
    (∀ s : String, ':' ∉ s.toList → parse_header s = .error .valueError) ∧
    (∀ a b c : List Char, ':' ∉ a → ':' ∉ b → ':' ∉ c →
       parse_header (String.mk (a ++ ':' :: (b ++ ':' :: c))) =
         .error .valueError) :=
  ⟨parse_header_split, parse_header_nocolon, parse_header_twocolon⟩

/-- Claim C2, witness at the claim's own example input. -/
theorem claim2_header_witness :
    parse_header ("Content-Type: text/html") =
      .ok ⟨"Content-Type", "text/html"⟩ := by
  have h := claim2_header_amended.1 ("Content-Type".toList) (" text/html".toList)
    (by decide) (by decide)
  exact h.trans (by decide)

/-! ## Claim C6 — sign of the ttl field -/

/-- Claim C6, counterexample.  The claim says every cache rule produced
from an accepted shorthand string has a non-negative `ttl`; the shorthand
`"*.jpg:-100"` is accepted (Python `int()` parses the sign) and yields
`ttl = -100 < 0`. -/
theorem claim6_ttl_counterexample :
    parse_cache_rule ("*.jpg:-100") = .ok ⟨"/*.jpg", -100⟩ ∧
      ((-100 : Int) < 0) := by
  decide

/-- Claim C6, amended: the `ttl` of a cache rule produced from accepted
shorthand is an integer that may be negative (the normalizer does not
enforce a sign); it is non-negative whenever the ttl part of the
shorthand is an unsigned digit run. -/
theorem claim6_ttl_amended :
    ∀ pat ds : List Char, ':' ∉ pat → ds ≠ [] →
      (∀ x ∈ ds, isAsciiDigit x = true) →
      ∃ r : CacheRule,
        parse_cache_rule (String.mk (pat ++ ':' :: ds)) = .ok r ∧ 0 ≤ r.ttl := by
  intro pat ds h1 hne hd
  have h2 : ':' ∉ ds := fun hm => digit_ne_colon (hd _ hm) rfl
  refine ⟨{ path_pattern :=
              String.mk (if pat.head? = some '/' then pat else '/' :: pat),
            ttl := (natOfDigits ds : Int) }, ?_, Int.natCast_nonneg _⟩
  rw [parse_cache_rule_split pat ds h1 h2, pyInt_digits hne hd]

/-- Claim C6, witness at a concrete unsigned shorthand. -/
theorem claim6_ttl_witness :
    ∃ r : CacheRule, parse_cache_rule ("p:7") = .ok r ∧ 0 ≤ r.ttl := by
  have h := claim6_ttl_amended ("p".toList) ("7".toList)
    (by decide) (by decide) (by decide)
  exact h

/-! ## Facts about the oss prefix and the dotted-quad pattern -/

/-- Python `replace` removes the leading occurrence first. -/
theorem removeOss_mark (x : List Char) :
    removeOss ("oss://".toList ++ x) = removeOss x := rfl

/-- A string with no occurrence of `oss://` is unchanged by `replace`. -/
theorem removeOss_id (l : List Char) (h : hasSub ossMark l = false) :
    removeOss l = l := by
  induction l using removeOss.induct with
  | case1 rest ih =>
    exfalso
    simp [hasSub, ossMark, List.isPrefixOf] at h
  | case2 a rest hne ih =>
    have h2 : hasSub ossMark rest = false := by
      simp only [hasSub, Bool.or_eq_false_iff] at h
      exact h.2
    rw [removeOss.eq_2 a rest hne, ih h2]
  | case3 => rfl

theorem startsWithOss_mark (x : List Char) :
    startsWithOss ("oss://".toList ++ x) = true := by
  simp [startsWithOss, ossMark, List.isPrefixOf]

theorem startsWithOss_colon {l : List Char} (h : startsWithOss l = true) :
    ':' ∈ l := by
  obtain ⟨t, ht⟩ := List.isPrefixOf_iff_prefix.mp h
  rw [← ht]
  exact List.mem_append.mpr (Or.inl (by decide))

theorem startsWithOss_head_digit {y : Char} {t : List Char}
    (h : isAsciiDigit y = true) : startsWithOss (y :: t) = false := by
  cases hx : startsWithOss (y :: t)
  · rfl
  · exfalso
    obtain ⟨r, hr⟩ := List.isPrefixOf_iff_prefix.mp hx
    rw [show ossMark ++ r = 'o' :: ("ss://".toList ++ r) from rfl] at hr
    have hy : 'o' = y := (List.cons.injEq _ _ _ _ ▸ hr).1
    rw [← hy] at h
    exact absurd h (by decide)

/-- Branch characterizations of `parse_source_info`. -/
theorem parse_source_oss (x : List Char) :
    parse_source_info (String.mk ("oss://".toList ++ x)) =
      .ok { type := "oss",
            content := String.mk (removeOss ("oss://".toList ++ x)), port := 80 } := by
  unfold parse_source_info
  rw [show (String.mk ("oss://".toList ++ x)).toList = "oss://".toList ++ x from rfl,
      startsWithOss_mark]
  rfl

theorem parse_source_split_ok (content p : List Char) (n : Int)
    (hswF : startsWithOss (content ++ ':' :: p) = false)
    (h1 : ':' ∉ content) (h2 : ':' ∉ p) (hpy : pyInt p = some n) :
    parse_source_info (String.mk (content ++ ':' :: p)) =
      .ok { type := if reMatchQuad content then "ipaddr" else "domain",
            content := String.mk content, port := n } := by
  unfold parse_source_info
  rw [show (String.mk (content ++ ':' :: p)).toList = content ++ ':' :: p from rfl,
      hswF, splitChar_append _ h1, splitChar_not_mem h2]
  simp only [hpy]
  rfl

theorem parse_source_split_err (content p : List Char)
    (hswF : startsWithOss (content ++ ':' :: p) = false)
    (h1 : ':' ∉ content) (h2 : ':' ∉ p) (hpy : pyInt p = none) :
    parse_source_info (String.mk (content ++ ':' :: p)) =
      .error .valueError := by
  unfold parse_source_info
  rw [show (String.mk (content ++ ':' :: p)).toList = content ++ ':' :: p from rfl,
      hswF, splitChar_append _ h1, splitChar_not_mem h2]
  simp only [hpy]
  rfl

theorem parse_source_nocolon (s : String) (hswF : startsWithOss s.toList = false)
    (h : ':' ∉ s.toList) :
    parse_source_info s =
      .ok { type := if reMatchQuad s.toList then "ipaddr" else "domain",
            content := String.mk s.toList, port := 80 } := by
  unfold parse_source_info
  rw [hswF, splitChar_not_mem h]
  rfl

/-! ## Claim C3 — the object-storage prefix is stripped by replace -/

/-- Claim C3, counterexample.  The claim says only the leading `oss://`
prefix is stripped and the remainder is unchanged even when it contains
`oss://` again; the code calls `replace("oss://", "")`, which removes
every occurrence: on `"oss://a/oss://b"` the content is `a/b`, not
`a/oss://b`. -/
theorem claim3_oss_counterexample :
    parse_source_info ("oss://a/oss://b") = .ok ⟨"oss", "a/b", 80⟩ ∧
      parse_source_info ("oss://a/oss://b") ≠ .ok ⟨"oss", "a/oss://b", 80⟩ := by
  decide

/-- Claim C3, amended: on an input `oss://X` the normalizer yields
`kind = oss` and `port = 80`, with content `X` stripped of every further
occurrence of the substring `oss://` as well; when `X` contains no such
occurrence the content is exactly `X` unchanged. -/
theorem claim3_oss_amended :
    ∀ x : List Char,
      parse_source_info (String.mk ("oss://".toList ++ x)) =
        .ok { type := "oss", content := String.mk (removeOss x), port := 80 } ∧
      (hasSub ossMark x = false → removeOss x = x) := by
  intro x
  refine ⟨?_, removeOss_id x⟩
  rw [parse_source_oss x, removeOss_mark]

/-- Claim C3, witness at a remainder free of further occurrences. -/
theorem claim3_oss_witness :
    parse_source_info ("oss://bucket.aliyuncs.com") =
      .ok ⟨"oss", "bucket.aliyuncs.com", 80⟩ ∧
    removeOss ("bucket.aliyuncs.com".toList) = "bucket.aliyuncs.com".toList := by
  constructor
  · have h := (claim3_oss_amended ("bucket.aliyuncs.com".toList)).1
    have h2 := (claim3_oss_amended ("bucket.aliyuncs.com".toList)).2 (by decide)
    exact h.trans (by rw [h2]; rfl)
  · exact (claim3_oss_amended ("bucket.aliyuncs.com".toList)).2 (by decide)

/-! ## Facts about the dotted-quad groups -/

theorem grp13_ne_nil {l : List Char} (h : grp13 l = true) : l ≠ [] := by
  intro he
  subst he
  exact absurd h (by decide)

theorem grp13_digits {l : List Char} (h : grp13 l = true) :
    ∀ x ∈ l, isAsciiDigit x = true := by
  simp only [grp13, Bool.and_eq_true] at h
  exact fun x hx => List.all_eq_true.mp h.2 x hx

theorem fourGroups_decomp {ds : List Char} (h : fourGroups ds = true) :
    ∃ a b c d : List Char,
      ds = a ++ '.' :: (b ++ '.' :: (c ++ '.' :: d)) ∧
      grp13 a = true ∧ grp13 b = true ∧ grp13 c = true ∧ grp13 d = true := by
  unfold fourGroups at h
  split at h
  · rename_i a b c d heq
    refine ⟨a, b, c, d, ?_, ?_, ?_, ?_, ?_⟩
    · have hj := joinChar_splitChar '.' ds
      rw [heq] at hj
      simpa [joinChar] using hj.symm
    all_goals simp only [Bool.and_eq_true] at h
    · exact h.1.1.1
    · exact h.1.1.2
    · exact h.1.2
    · exact h.2
  · exact absurd h (by simp)

theorem fourGroups_chars {ds : List Char} (h : fourGroups ds = true) :
    ∀ x ∈ ds, isAsciiDigit x = true ∨ x = '.' := by
  obtain ⟨a, b, c, d, hds, ha, hb, hc, hd⟩ := fourGroups_decomp h
  intro x hx
  rw [hds] at hx
  simp only [List.mem_append, List.mem_cons] at hx
  rcases hx with hx | hx | hx | hx | hx | hx | hx
  · exact Or.inl (grp13_digits ha x hx)
  · exact Or.inr hx
  · exact Or.inl (grp13_digits hb x hx)
  · exact Or.inr hx
  · exact Or.inl (grp13_digits hc x hx)
  · exact Or.inr hx
  · exact Or.inl (grp13_digits hd x hx)

theorem fourGroups_colon {ds : List Char} (h : fourGroups ds = true) :
    ':' ∉ ds := by
  intro hm
  rcases fourGroups_chars h ':' hm with hd | hdot
  · exact absurd hd (by decide)
  · exact absurd hdot (by decide)

theorem fourGroups_head {ds : List Char} (h : fourGroups ds = true) :
    ∃ y t, ds = y :: t ∧ isAsciiDigit y = true := by
  obtain ⟨a, b, c, d, hds, ha, _, _, _⟩ := fourGroups_decomp h
  cases a with
  | nil => exact absurd rfl (grp13_ne_nil ha)
  | cons y t0 =>
    refine ⟨y, t0 ++ '.' :: (b ++ '.' :: (c ++ '.' :: d)), ?_,
      grp13_digits ha y (List.mem_cons_self y t0)⟩
    rw [hds]
    rfl

theorem reMatchQuad_of_fourGroups {ds : List Char} (h : fourGroups ds = true) :
    reMatchQuad ds = true := by
  simp [reMatchQuad, h]

theorem digits_no_colon {ps : List Char}
    (h : ∀ x ∈ ps, isAsciiDigit x = true) : ':' ∉ ps :=
  fun hm => digit_ne_colon (h _ hm) rfl

/-! ## Claim C5 — ip:port shorthand, default port, kind classification -/

/-- Claim C5: for `ip:port` shorthand with a dotted-quad ip and a numeric
port the normalizer yields kind `ipaddr`, the ip as content, and the
parsed port; shorthand without a colon keeps the whole string as content
with port 80; and any string-branch result is classified `ipaddr` exactly
when its content matches the code's dotted-quad pattern, else `domain`. -/
theorem claim5_origin_shorthand :
    (∀ ds ps : List Char, fourGroups ds = true → ps ≠ [] →
       (∀ x ∈ ps, isAsciiDigit x = true) →
       parse_source_info (String.mk (ds ++ ':' :: ps)) =
         .ok { type := "ipaddr", content := String.mk ds,
               port := (natOfDigits ps : Int) }) ∧
    (∀ s : String, ':' ∉ s.toList →
       parse_source_info s =
         .ok { type := if reMatchQuad s.toList then "ipaddr" else "domain",
               content := s, port := 80 }) ∧
    (∀ s : String, startsWithOss s.toList = false →
       ∀ r : SourceInfo, parse_source_info s = .ok r →
         ((r.type = "ipaddr" ↔ reMatchQuad r.content.toList = true) ∧
          (r.type = "ipaddr" ∨ r.type = "domain"))) := by
  refine ⟨?_, ?_, ?_⟩
  · intro ds ps hq hne hd
    obtain ⟨y, t, hds, hy⟩ := fourGroups_head hq
    have hsw : startsWithOss (ds ++ ':' :: ps) = false := by
      rw [hds]
      exact startsWithOss_head_digit hy
    have hpy := pyInt_digits hne hd
    rw [parse_source_split_ok ds ps _ hsw (fourGroups_colon hq)
      (digits_no_colon hd) hpy]
    simp [reMatchQuad_of_fourGroups hq]
  · intro s h
    have hsw : startsWithOss s.toList = false := by
      cases hx : startsWithOss s.toList
      · rfl
      · exact absurd (startsWithOss_colon hx) h
    exact parse_source_nocolon s hsw h
  · intro s hsw r hr
    unfold parse_source_info at hr
    rw [hsw] at hr
    simp only [Bool.false_eq_true, if_false] at hr
    rcases hsp : splitChar ':' s.toList with _ | ⟨content, restParts⟩
    · rw [hsp] at hr
      exact absurd hr (by simp)
    · rw [hsp] at hr
      rcases restParts with _ | ⟨p, tail⟩
      · simp only [] at hr
        have hr2 : r = { type := if reMatchQuad content then "ipaddr" else "domain",
                         content := String.mk content, port := (80 : Int) } := by
          cases hr
          rfl
        subst hr2
        cases hm : reMatchQuad content with
        | false => simp [hm]
        | true => simp [hm]
      · rcases hpy : pyInt p with _ | n
        · simp only [] at hr
          rw [hpy] at hr
          exact absurd hr (by simp)
        · simp only [] at hr
          rw [hpy] at hr
          have hr2 : r = { type := if reMatchQuad content then "ipaddr" else "domain",
                           content := String.mk content, port := n } := by
            simp only [] at hr
            cases hr
            rfl
          subst hr2
          cases hm : reMatchQuad content with
          | false => simp [hm]
          | true => simp [hm]

/-- Claim C5, witness at the spec's end-to-end scenario input. -/
theorem claim5_origin_witness :
    parse_source_info ("1.2.3.4:81") = .ok ⟨"ipaddr", "1.2.3.4", 81⟩ := by
  have h := claim5_origin_shorthand.1 ("1.2.3.4".toList) ("81".toList)
    (by decide) (by decide) (by decide)
  exact h.trans (by decide)

/-! ## Claim C4 — cache-line duration heuristics -/

/-- Claim C4, counterexample.  The claim says the first digit run is
used directly as hours whenever no day marker is present; on the cache
line `缓存2` (digit run `2`, no unit marker at all) the code keeps the
default of one hour and emits ttl 3600, not the 2 hours (ttl 7200) the
claim predicts. -/
theorem claim4_cache_hours_counterexample :
    processLine initDraft ("缓存2".toList) =
      .ok { initDraft with cache_rules := ["*:3600"] } ∧
    processLine initDraft ("缓存2".toList) ≠
      .ok { initDraft with cache_rules := ["*:7200"] } := by
  decide

/-- Claim C4, amended: the first digit run determines the hours only
when a unit marker is present — taken directly with the hour marker
(checked first), multiplied by 24 with the day marker; a cache line with
digits but no unit marker keeps the default of 1 hour; with a unit
marker but no digit run the subscript raises an indexing error;
`ttl_seconds = hours * 3600`; and the boundary case of a cache line with
the day marker and digit 2 yields `2*24*3600`. -/
theorem claim4_cache_hours_amended :
    (∀ line : List Char, hasSub hourMark line = false →
       hasSub dayMark line = true →
       cacheHours line =
         match firstDigitRun line with
         | some ds => .ok (natOfDigits ds * 24)
         | none => .error .indexError) ∧
    (∀ line : List Char, hasSub hourMark line = true →
       cacheHours line =
         match firstDigitRun line with
         | some ds => .ok (natOfDigits ds)
         | none => .error .indexError) ∧
    (∀ line : List Char, hasSub hourMark line = false →
       hasSub dayMark line = false → cacheHours line = .ok 1) ∧
    (∀ d : Draft, ∀ line : List Char, ∀ hours : Nat,
       cacheHours line = .ok hours →
       handleCache d line =
         .ok { d with cache_rules := d.cache_rules ++ cacheRuleStrings line hours }) ∧
    processLine initDraft ("缓存2天".toList) =
      .ok { initDraft with cache_rules := ["*:172800"] } := by
  refine ⟨?_, ?_, ?_, ?_, by decide⟩
  · intro line h1 h2
    unfold cacheHours
    rw [h1, h2]
    rfl
  · intro line h1
    unfold cacheHours
    rw [h1]
    rfl
  · intro line h1 h2
    unfold cacheHours
    rw [h1, h2]
    rfl
  · intro d line hours hch
    unfold handleCache
    rw [hch]
    rfl

/-- Claim C4, witness at a day-marker cache line. -/
theorem claim4_cache_hours_witness :
    cacheHours ("缓存3天".toList) = .ok 72 := by
  have h := claim4_cache_hours_amended.1 ("缓存3天".toList) (by decide) (by decide)
  exact h.trans (by decide)

/-! ## Claim C8 — one category per line, first match wins -/

/-- Claim C8: each line is handled by at most one category, namely the
first of the fixed priority order (domain suffix, acceleration type,
origin type, IP address, port, cache) whose marker it contains; in
particular a line containing both the port and the cache markers (and no
earlier marker) is handled by the port branch alone. -/
theorem claim8_first_match_priority :
    (∀ d : Draft, ∀ line : List Char,
       processLine d line =
         match categoryOf line with
         | none => .ok d
         | some c => handleCat c d line) ∧
    (∀ d : Draft, ∀ line : List Char,
       hasSub portMark line = true → hasSub cacheMark line = true →
       hasSub domainMark line = false → hasSub accelMark line = false →
       hasSub originTypeMark line = false → hasSub ipMark line = false →
       processLine d line = handlePort d line) := by
  constructor
  · intro d line
    cases h1 : hasSub domainMark line with
    | true => simp [processLine, categoryOf, markerTable, List.find?, h1, handleCat]
    | false =>
      cases h2 : hasSub accelMark line with
      | true =>
        simp [processLine, categoryOf, markerTable, List.find?, h1, h2, handleCat]
      | false =>
        cases h3 : hasSub originTypeMark line with
        | true =>
          simp [processLine, categoryOf, markerTable, List.find?, h1, h2, h3,
            handleCat]
        | false =>
          cases h4 : hasSub ipMark line with
          | true =>
            simp [processLine, categoryOf, markerTable, List.find?, h1, h2, h3,
              h4, handleCat]
          | false =>
            cases h5 : hasSub portMark line with
            | true =>
              simp [processLine, categoryOf, markerTable, List.find?, h1, h2,
                h3, h4, h5, handleCat]
            | false =>
              cases h6 : hasSub cacheMark line with
              | true =>
                simp [processLine, categoryOf, markerTable, List.find?, h1, h2,
                  h3, h4, h5, h6, handleCat]
              | false =>
                simp [processLine, categoryOf, markerTable, List.find?, h1, h2,
                  h3, h4, h5, h6]
  · intro d line hp hc h1 h2 h3 h4
    simp [processLine, h1, h2, h3, h4, hp]

/-- Claim C8, witness: a line containing both the port and the cache
markers goes to the port branch. -/
theorem claim8_first_match_witness :
    processLine initDraft ("缓存端口8".toList) =
      .ok { initDraft with source_port := some 8 } := by
  have h := claim8_first_match_priority.2 initDraft ("缓存端口8".toList)
    (by decide) (by decide) (by decide) (by decide) (by decide) (by decide)
  exact h.trans (by decide)

/-! ## Field-preservation facts for the line loop -/

theorem handleAccel_domain (d : Draft) (l : List Char) :
    (handleAccel d l).domain_name = d.domain_name := by
  unfold handleAccel
  repeat' split
  all_goals rfl

theorem handleAccel_ip (d : Draft) (l : List Char) :
    (handleAccel d l).source_ip = d.source_ip := by
  unfold handleAccel
  repeat' split
  all_goals rfl

theorem handleOriginType_domain (d : Draft) (l : List Char) :
    (handleOriginType d l).domain_name = d.domain_name := by
  unfold handleOriginType
  repeat' split
  all_goals rfl

theorem handleOriginType_ip (d : Draft) (l : List Char) :
    (handleOriginType d l).source_ip = d.source_ip := by
  unfold handleOriginType
  repeat' split
  all_goals rfl

theorem handleIp_fields {d d' : Draft} {l : List Char}
    (h : handleIp d l = .ok d') : d'.domain_name = d.domain_name := by
  unfold handleIp at h
  rcases hq : firstQuad l with _ | q
  · rw [hq] at h
    exact absurd h (by simp)
  · rw [hq] at h
    cases h
    rfl

theorem handlePort_fields {d d' : Draft} {l : List Char}
    (h : handlePort d l = .ok d') :
    d'.domain_name = d.domain_name ∧ d'.source_ip = d.source_ip := by
  unfold handlePort at h
  rcases hq : firstDigitRun l with _ | ds
  · rw [hq] at h
    exact absurd h (by simp)
  · rw [hq] at h
    cases h
    exact ⟨rfl, rfl⟩

theorem handleCache_fields {d d' : Draft} {l : List Char}
    (h : handleCache d l = .ok d') :
    d'.domain_name = d.domain_name ∧ d'.source_ip = d.source_ip := by
  unfold handleCache at h
  rcases hq : cacheHours l with e | hours
  · rw [hq] at h
    exact absurd h (by simp)
  · rw [hq] at h
    simp only [] at h
    cases h
    exact ⟨rfl, rfl⟩

/-- A line without the domain marker cannot change the recorded domain. -/
theorem processLine_domain {d d' : Draft} {l : List Char}
    (hnd : hasSub domainMark l = false) (h : processLine d l = .ok d') :
    d'.domain_name = d.domain_name := by
  unfold processLine at h
  rw [hnd] at h
  simp only [Bool.false_eq_true, if_false] at h
  split at h
  · cases h
    exact handleAccel_domain d l
  · split at h
    · cases h
      exact handleOriginType_domain d l
    · split at h
      · exact handleIp_fields h
      · split at h
        · exact (handlePort_fields h).1
        · split at h
          · exact (handleCache_fields h).1
          · cases h
            rfl

/-- A line without the IP marker cannot change the recorded source ip. -/
theorem processLine_ip {d d' : Draft} {l : List Char}
    (hni : hasSub ipMark l = false) (h : processLine d l = .ok d') :
    d'.source_ip = d.source_ip := by
  unfold processLine at h
  rw [hni] at h
  split at h
  · cases h
    rfl
  · split at h
    · cases h
      exact handleAccel_ip d l
    · split at h
      · cases h
        exact handleOriginType_ip d l
      · simp only [Bool.false_eq_true, if_false] at h
        split at h
        · exact (handlePort_fields h).2
        · split at h
          · exact (handleCache_fields h).2
          · cases h
            rfl

theorem runLines_domain {ls : List (List Char)} {d d' : Draft}
    (hnd : ∀ l ∈ ls, hasSub domainMark l = false)
    (h : runLines d ls = .ok d') : d'.domain_name = d.domain_name := by
  induction ls generalizing d with
  | nil => cases h; rfl
  | cons l ls ih =>
    unfold runLines at h
    rcases hp : processLine d l with e | d2
    · rw [hp] at h
      exact absurd h (by simp)
    · rw [hp] at h
      simp only [] at h
      have h1 := processLine_domain (hnd l (List.mem_cons_self l ls)) hp
      have h2 := ih (fun x hx => hnd x (List.mem_cons_of_mem _ hx)) h
      rw [h2, h1]

theorem runLines_ip {ls : List (List Char)} {d d' : Draft}
    (hni : ∀ l ∈ ls, hasSub ipMark l = false)
    (h : runLines d ls = .ok d') : d'.source_ip = d.source_ip := by
  induction ls generalizing d with
  | nil => cases h; rfl
  | cons l ls ih =>
    unfold runLines at h
    rcases hp : processLine d l with e | d2
    · rw [hp] at h
      exact absurd h (by simp)
    · rw [hp] at h
      simp only [] at h
      have h1 := processLine_ip (hni l (List.mem_cons_self l ls)) hp
      have h2 := ih (fun x hx => hni x (List.mem_cons_of_mem _ hx)) h
      rw [h2, h1]

/-! ## Claim C7 — missing domain yields a message and no service call -/

/-- Claim C7, counterexample.  The claim says EVERY text without a
domain-suffix line returns the missing-domain message and performs no
service call, with no raised exception; but a domain-free text whose
line contains the IP marker and no dotted quad raises `IndexError`
instead of returning the message. -/
theorem claim7_missing_domain_counterexample :
    setup_cdn_with_text ("源站IP地址 abc") = .error .indexError ∧
      setup_cdn_with_text ("源站IP地址 abc") ≠
        .ok { calls := [], message := noDomainMsg } := by
  decide

/-- Claim C7, amended: for a text without a domain-suffix line the
extractor returns the descriptive missing-domain message with no service
call, provided the line scan itself completes without raising (no line
triggers the partial indexing of the IP, port, or unit-marked cache
branches). -/
theorem claim7_missing_domain_amended :
    ∀ text : String,
      (∀ l ∈ extractLines text, hasSub domainMark l = false) →
      ∀ d : Draft, runLines initDraft (extractLines text) = .ok d →
        setup_cdn_with_text text = .ok { calls := [], message := noDomainMsg } := by
  intro text hnd d hrun
  have hdom : d.domain_name = none := by
    rw [runLines_domain hnd hrun]
    rfl
  unfold setup_cdn_with_text
  rw [hrun]
  simp only []
  rw [hdom]

/-- Claim C7, witness at a marker-free text. -/
theorem claim7_missing_domain_witness :
    setup_cdn_with_text ("你好世界") =
      .ok { calls := [], message := noDomainMsg } :=
  claim7_missing_domain_amended ("你好世界") (by decide) initDraft (by decide)

/-! ## Claim C9 — absent origin ip still reaches add-domain as None -/

/-- Claim C9, counterexample.  The claim says EVERY text with a
domain-suffix line and no IP-marker line leads to an add-domain
invocation with an absent content; but such a text whose port line has
no digit run raises `IndexError` before any invocation. -/
theorem claim9_absent_ip_counterexample :
    setup_cdn_with_text ("b.xiangyuncdn.com\n端口 x") = .error .indexError ∧
      (setup_cdn_with_text ("b.xiangyuncdn.com\n端口 x")).isOk = false := by
  decide

/-- Claim C9, amended: for a text with a domain-suffix line and no
IP-marker line, the extractor — provided the line scan completes without
raising — builds the origin record with content `None` and records the
add-domain invocation with that record, rather than failing or requiring
an origin address. -/
theorem claim9_absent_ip_amended :
    ∀ text : String, ∀ d : Draft, ∀ dn : String,
      runLines initDraft (extractLines text) = .ok d →
      (∀ l ∈ extractLines text, hasSub ipMark l = false) →
      d.domain_name = some dn → dn.isEmpty = false →
      ∃ src : NLSource, ∃ cdnT : String, ∃ rest : List SvcCall, ∃ msg : String,
        setup_cdn_with_text text =
          .ok { calls := SvcCall.addDomain dn src cdnT :: rest, message := msg } ∧
        src.content = none := by
  intro text d dn hrun hni hdom hne
  have hip : d.source_ip = none := by
    rw [runLines_ip hni hrun]
    rfl
  refine ⟨{ type := pyOrStr d.source_type "ipaddr", content := d.source_ip,
            port := pyOrNat d.source_port 80 },
          pyOrStr d.cdn_type "web",
          (if d.cache_rules.isEmpty then [] else [SvcCall.setCache dn d.cache_rules]),
          "已完成CDN配置：\n" ++ "域名 " ++ dn ++ " 添加成功", ?_, hip⟩
  unfold setup_cdn_with_text
  rw [hrun]
  simp only []
  rw [hdom]
  simp only []
  rw [hne]
  rfl

/-- Claim C9, witness at a text holding only a domain line. -/
theorem claim9_absent_ip_witness :
    ∃ src : NLSource, ∃ cdnT : String, ∃ rest : List SvcCall, ∃ msg : String,
      setup_cdn_with_text ("a.xiangyuncdn.com") =
        .ok { calls := SvcCall.addDomain ("a.xiangyuncdn.com") src cdnT :: rest,
              message := msg } ∧
      src.content = none :=
  claim9_absent_ip_amended ("a.xiangyuncdn.com")
    { initDraft with domain_name := some ("a.xiangyuncdn.com") }
    ("a.xiangyuncdn.com") (by decide) (by decide) (by decide) (by decide)

/-! ## Claim C10 — partial extraction raises an indexing error -/

/-- Claim C10: a line with the IP marker but no dotted-quad substring,
or with the port marker but no digit run, makes the extraction raise an
uncaught indexing error instead of producing any result: witnessed
end-to-end on two concrete texts, and in general the IP and port
branches error whenever their match list is empty. -/
theorem claim10_partial_extraction :
    setup_cdn_with_text ("源站的IP地址 abc") = .error .indexError ∧
    setup_cdn_with_text ("回源端口 abc") = .error .indexError ∧
    (∀ d : Draft, ∀ line : List Char, firstQuad line = none →
       handleIp d line = .error .indexError) ∧
    (∀ d : Draft, ∀ line : List Char, firstDigitRun line = none →
       handlePort d line = .error .indexError) := by
  refine ⟨by decide, by decide, ?_, ?_⟩
  · intro d line h
    unfold handleIp
    rw [h]
  · intro d line h
    unfold handlePort
    rw [h]

/-- Claim C10, witness for the branch-level statements. -/
theorem claim10_partial_extraction_witness :
    handleIp initDraft ("abc".toList) = .error .indexError ∧
    handlePort initDraft ("xyz".toList) = .error .indexError :=
  ⟨claim10_partial_extraction.2.2.1 initDraft ("abc".toList) (by decide),
   claim10_partial_extraction.2.2.2 initDraft ("xyz".toList) (by decide)⟩

end CdnMcp
